import Mathlib

/-!
Shallow embedding of the `desunechan/colorant` repository (Rust).

The embedding covers the parts of the code the claims are about:
  * `src/colorant.rs` : `rgb_to_hsv_opencv`, `find_target_hsv`
  * `src/capture.rs`  : the body of one capture-loop iteration
  * `src/mouse.rs`    : `ArduinoMouse` state, `connect`, `reconnect`,
                        `move_mouse`, `flick`, `click`, `close`

Rust `f32` arithmetic is embedded as exact rational arithmetic (`ℚ`);
all concrete values the theorems evaluate at are exactly representable
in `f32`, so the rational computation agrees with the float one there.
Machine integers are `ℕ`/`ℤ` with the saturating float-to-`u8` cast made
explicit.  Wall-clock `Instant`s are modelled as a millisecond counter
passed in explicitly; fallible externals (serial open, serial write, GDI
calls) are modelled as boolean oracles supplied per call.
-/

set_option maxHeartbeats 1000000

namespace Colorant

/-! ## colorant.rs : RGB → HSV conversion -/

/-- Rust `f32::round()` for the nonnegative arguments that occur in
`rgb_to_hsv_opencv` (round half away from zero = floor(x + 1/2) for x ≥ 0),
followed by the `as u8` cast, which is the identity here because every
rounded value in that function lies in `[0, 255]`. -/
def rnd (x : ℚ) : ℕ := (Int.floor (x + 1/2)).toNat

/-- Embedding of `ColorantEngine::rgb_to_hsv_opencv` (src/colorant.rs:250-291).
`rf = r/255`, `gf = g/255`, `bf = b/255`; value `v = round(max*255)`;
saturation `s = max>0 ? round(delta/max*255) : 0`; hue by the six-case
formula, normalized to `[0,360)`, halved and rounded to the 8-bit
`[0,180]` OpenCV encoding. -/
def rgb_to_hsv_opencv (r g b : ℕ) : ℕ × ℕ × ℕ :=
  let rf : ℚ := r / 255
  let gf : ℚ := g / 255
  let bf : ℚ := b / 255
  let mx : ℚ := max rf (max gf bf)
  let mn : ℚ := min rf (min gf bf)
  let delta : ℚ := mx - mn
  let v : ℕ := rnd (mx * 255)
  let s : ℕ := if 0 < mx then rnd (delta / mx * 255) else 0
  let h : ℚ :=
    if 0 < delta then
      let h0 : ℚ :=
        if mx = rf then 60 * ((gf - bf) / delta)
        else if mx = gf then 60 * ((bf - rf) / delta + 2)
        else if mx = bf then 60 * ((rf - gf) / delta + 4)
        else 0
      if h0 < 0 then h0 + 360 else h0
    else 0
  (rnd (h / 2), s, v)

/-! ## Frames (image::RgbImage restricted to what the code uses) -/

/-- A dense row-major RGB frame: `data` lists the bytes
`[r00, g00, b00, r10, g10, b10, ...]`, row by row. -/
structure Frame where
  width : ℕ
  height : ℕ
  data : List ℕ
deriving DecidableEq

/-- `frame.get_pixel(x, y).0 = [r, g, b]` for a well-formed frame. -/
def Frame.get_pixel (f : Frame) (x y : ℕ) : ℕ × ℕ × ℕ :=
  let i := 3 * (y * f.width + x)
  (f.data.getD i 0, f.data.getD (i + 1) 0, f.data.getD (i + 2) 0)

/-- `RgbImage::from_raw`: succeeds iff the buffer has exactly
`width*height*3` bytes. -/
def Frame.from_raw (w h : ℕ) (buf : List ℕ) : Option Frame :=
  if buf.length = w * h * 3 then some ⟨w, h, buf⟩ else none

/-! ## colorant.rs : target locator -/

/-- The scan order of `find_target_hsv`: `for y in 0..height { for x in
0..width { ... } }`, as the list of `(x, y)` pairs visited. -/
def framePixels (f : Frame) : List (ℕ × ℕ) :=
  (List.range f.height).flatMap fun y => (List.range f.width).map fun x => (x, y)

/-- The per-pixel HSV range test of `find_target_hsv`
(src/colorant.rs:224-226): inclusive per-channel bounds on the converted
`(h, s, v)` of the pixel at `(x, y)`. -/
def pixelMatches (lower upper : ℕ × ℕ × ℕ) (f : Frame) (p : ℕ × ℕ) : Bool :=
  let rgb := f.get_pixel p.1 p.2
  let hsv := rgb_to_hsv_opencv rgb.1 rgb.2.1 rgb.2.2
  decide (lower.1 ≤ hsv.1) && decide (hsv.1 ≤ upper.1) &&
  (decide (lower.2.1 ≤ hsv.2.1) && decide (hsv.2.1 ≤ upper.2.1)) &&
  (decide (lower.2.2 ≤ hsv.2.2) && decide (hsv.2.2 ≤ upper.2.2))

/-- Embedding of `ColorantEngine::find_target_hsv` (src/colorant.rs:206-247).
Sums the coordinates of matching pixels and counts them; if the count is
positive returns the truncated mean (`i64` division of nonnegative values
= `ℕ` division), else `None`. -/
def find_target_hsv (lower upper : ℕ × ℕ × ℕ) (f : Frame) : Option (ℕ × ℕ) :=
  let matched := (framePixels f).filter (pixelMatches lower upper f)
  let total_x := (matched.map Prod.fst).sum
  let total_y := (matched.map Prod.snd).sum
  let pixel_count := matched.length
  if 0 < pixel_count then some (total_x / pixel_count, total_y / pixel_count)
  else none

/-! ## capture.rs : one capture-loop iteration -/

structure CaptureConfig where
  x : ℤ
  y : ℤ
  width : ℕ
  height : ℕ

/-- Outcomes of the fallible GDI calls in one iteration of the capture
loop, supplied as an oracle.  `dibits` is the BGR byte content `GetDIBits`
leaves in the destination buffer (the buffer is allocated as
`vec![0u8; w*h*3]`, so bytes the oracle does not supply stay 0).
`bitBltOk` is recorded but — exactly as in the source — a failed `BitBlt`
is only logged (src/capture.rs:148-151), it does not abort the iteration. -/
structure CaptureOracle where
  getDCOk : Bool
  createDCOk : Bool
  createBitmapOk : Bool
  bitBltOk : Bool
  dibits : List ℕ

/-- The BGR→RGB swap of src/capture.rs:194-200: within each 3-byte pixel,
bytes 0 and 2 are exchanged.  The buffer length is always a multiple of 3. -/
def bgrToRgb : List ℕ → List ℕ
  | b :: g :: r :: rest => r :: g :: b :: bgrToRgb rest
  | l => l

/-- Embedding of the body of one iteration of the capture thread's loop
(src/capture.rs:90-223), as a function from the current content of the
shared `latest_frame` slot to its content after the iteration.
Early `continue`s (null screen DC, null memory DC, null bitmap) leave the
slot untouched; a `BitBlt` or `GetDIBits` failure is only logged and the
iteration still builds and publishes a frame; `RgbImage::from_raw`
returning `None` leaves the slot untouched. -/
def captureIter (cfg : CaptureConfig) (o : CaptureOracle) (slot : Option Frame) :
    Option Frame :=
  if !o.getDCOk then slot
  else if !o.createDCOk then slot
  else if !o.createBitmapOk then slot
  else
    let n := cfg.width * cfg.height * 3
    let buffer := (List.range n).map fun i => o.dibits.getD i 0
    let rgb_buffer := bgrToRgb buffer
    match Frame.from_raw cfg.width cfg.height rgb_buffer with
    | some image => some image
    | none => slot

/-! ## mouse.rs : ArduinoMouse -/

/-- The error cases `ArduinoMouse` methods can return (all are
`anyhow::Error` in the source; we keep them apart). -/
inductive MErr where
  | tooSoon      -- "Too soon to reconnect"
  | connectFail  -- serialport open failed inside connect()
  | ioError      -- port.write(...) failed
  | portNotOpen  -- "Serial port not open"
deriving DecidableEq

/-- `anyhow::Result<()>` as the mouse methods use it. -/
inductive MRes where
  | ok
  | err (e : MErr)
deriving DecidableEq

/-- State of an `ArduinoMouse` (src/mouse.rs:34-42) plus the log `sent` of
byte frames successfully written to the serial port (the observable wire
traffic).  `last_reconnect` is the millisecond timestamp recorded by
`connect`; the config fields the claims need are inlined. -/
structure MouseState where
  filter_length : ℕ
  reconnect_delay_ms : ℕ
  port : Option Unit
  is_connected : Bool
  x_history : List ℚ
  y_history : List ℚ
  last_reconnect : ℕ
  sent : List (List ℕ)
deriving DecidableEq

/-- Embedding of `ArduinoMouse::connect` (src/mouse.rs:102-116): `openOk`
is the outcome of `serialport::new(...).open()`.  On success the handle is
stored, the link marked connected and the instant recorded; on failure the
`?` returns before any state is touched. -/
def connect (s : MouseState) (now : ℕ) (openOk : Bool) : MouseState × MRes :=
  if openOk then
    ({ s with port := some (), is_connected := true, last_reconnect := now },
     MRes.ok)
  else (s, MRes.err MErr.connectFail)

/-- Embedding of `ArduinoMouse::reconnect` (src/mouse.rs:118-130):
refuse with "Too soon" when less than `reconnect_delay_ms` has elapsed
since `last_reconnect`; otherwise take (flush and drop) the current handle
and call `connect` again. -/
def reconnect (s : MouseState) (now : ℕ) (openOk : Bool) : MouseState × MRes :=
  if now - s.last_reconnect < s.reconnect_delay_ms then (s, MRes.err MErr.tooSoon)
  else connect { s with port := none } now openOk

/-- The history update of `move_mouse` (src/mouse.rs:137-143): push the
sample on both histories; if `x_history` then exceeds `filter_length`,
remove the oldest element of both. -/
def pushSamples (fl : ℕ) (xh yh : List ℚ) (x y : ℚ) : List ℚ × List ℚ :=
  let xh' := xh ++ [x]
  let yh' := yh ++ [y]
  if fl < xh'.length then (xh'.tail, yh'.tail) else (xh', yh')

/-- The smoothing mean of `move_mouse` (src/mouse.rs:145-146):
`history.iter().sum::<f32>() / history.len() as f32`. -/
def histMean (h : List ℚ) : ℚ := h.sum / (h.length : ℚ)

/-- Iterates the history update and smoothing mean of `move_mouse` over a
list of samples, collecting the smoothed `(x, y)` output of each push
(a scenario driver for `pushSamples`/`histMean`). -/
def pushSeq (fl : ℕ) (xh yh : List ℚ) : List (ℚ × ℚ) → List (ℚ × ℚ)
  | [] => []
  | (x, y) :: rest =>
    let hs := pushSamples fl xh yh x y
    (histMean hs.1, histMean hs.2) :: pushSeq fl hs.1 hs.2 rest

/-- Rust's saturating float-to-`u8` cast (`as u8`): truncate toward zero,
clamp to `[0, 255]` (negative values, including the `NaN` that cannot
arise here, go to 0). -/
def cast_u8 (m : ℚ) : ℕ := if m < 0 then 0 else min 255 (Int.floor m).toNat

/-- The wire-byte encoding of a smoothed delta (src/mouse.rs:148-158):
negative means get 256 added before the `as u8` truncation. -/
def final_byte (m : ℚ) : ℕ := if m < 0 then cast_u8 (m + 256) else cast_u8 m

/-- The body of `move_mouse` after the reconnect preamble
(src/mouse.rs:137-166): push the sample, compute the smoothed means,
encode them and attempt the 3-byte write `['M', final_x, final_y]`
(`77 = b'M'`).  The histories are pushed and the means encoded before the
port is examined; a write failure propagates via `?` without touching
`is_connected`; `is_connected` is set to `false` only on the
port-is-`None` branch. -/
def sendMove (s : MouseState) (writeOk : Bool) (x y : ℚ) : MouseState × MRes :=
  let hs := pushSamples s.filter_length s.x_history s.y_history x y
  let s2 := { s with x_history := hs.1, y_history := hs.2 }
  let final_x := final_byte (histMean hs.1)
  let final_y := final_byte (histMean hs.2)
  match s2.port with
  | some _ =>
    if writeOk then
      ({ s2 with sent := s2.sent ++ [[77, final_x, final_y]] }, MRes.ok)
    else (s2, MRes.err MErr.ioError)
  | none => ({ s2 with is_connected := false }, MRes.err MErr.portNotOpen)

/-- Embedding of `ArduinoMouse::move_mouse` (src/mouse.rs:132-167):
`if !self.is_connected { self.reconnect()?; }` then the send body.
`now` and `openOk` parametrize the inline reconnect; `writeOk` is the
outcome of `port.write(...)`.  A failed reconnect returns early with its
error (and with whatever state the reconnect left behind). -/
def move_mouse (s : MouseState) (now : ℕ) (openOk writeOk : Bool) (x y : ℚ) :
    MouseState × MRes :=
  if s.is_connected then sendMove s writeOk x y
  else
    match reconnect s now openOk with
    | (s1, MRes.err e) => (s1, MRes.err e)
    | (s1, MRes.ok) => sendMove s1 writeOk x y

/-- Embedding of `ArduinoMouse::flick` (src/mouse.rs:169-171):
`self.move_mouse(x, y).await`. -/
def flick (s : MouseState) (now : ℕ) (openOk writeOk : Bool) (x y : ℚ) :
    MouseState × MRes :=
  move_mouse s now openOk writeOk x y

/-- The body of `click` after the reconnect preamble
(src/mouse.rs:178-195): the humanized random pre-click sleep changes no
state we model; then the 1-byte write `['C']` (`67 = b'C'`).  As in
`sendMove`, a write failure propagates without touching `is_connected`. -/
def sendClick (s : MouseState) (writeOk : Bool) : MouseState × MRes :=
  match s.port with
  | some _ =>
    if writeOk then ({ s with sent := s.sent ++ [[67]] }, MRes.ok)
    else (s, MRes.err MErr.ioError)
  | none => ({ s with is_connected := false }, MRes.err MErr.portNotOpen)

/-- Embedding of `ArduinoMouse::click` (src/mouse.rs:173-196). -/
def click (s : MouseState) (now : ℕ) (openOk writeOk : Bool) :
    MouseState × MRes :=
  if s.is_connected then sendClick s writeOk
  else
    match reconnect s now openOk with
    | (s1, MRes.err e) => (s1, MRes.err e)
    | (s1, MRes.ok) => sendClick s1 writeOk

/-- Embedding of `ArduinoMouse::close` (src/mouse.rs:202-208): take and
flush the handle, mark disconnected. -/
def close (s : MouseState) : MouseState :=
  { s with port := none, is_connected := false }

/-- The histories of a fresh `ArduinoMouse` (src/mouse.rs:48-56) are empty
and the port handle is installed by the `connect` call in `new`; this is
the post-`new` state for the default config, with the port open,
parametrized by the connect instant. -/
def freshMouse (t0 : ℕ) : MouseState :=
  { filter_length := 3
    reconnect_delay_ms := 1000
    port := some ()
    is_connected := true
    x_history := []
    y_history := []
    last_reconnect := t0
    sent := [] }

/-- The history invariant of `ArduinoMouse`: the two smoothing histories
have equal lengths, at most `filter_length`, and are non-empty (so the
means `sum / len` divide by a positive length). -/
def histInv (s : MouseState) : Prop :=
  s.y_history.length = s.x_history.length ∧
  s.x_history.length ≤ s.filter_length ∧
  s.x_history ≠ []

/-! ## Concrete test fixtures -/

/-- HSV bounds matching exactly the HSV value of pure red. -/
def redBound : ℕ × ℕ × ℕ := (0, 255, 255)

/-- A 2×2 frame: all black except a pure-red pixel at `(x, y) = (1, 0)`. -/
def frRed : Frame := ⟨2, 2, [0, 0, 0, 255, 0, 0, 0, 0, 0, 0, 0, 0]⟩

/-- A 1×1 all-black frame. -/
def frBlack : Frame := ⟨1, 1, [0, 0, 0]⟩

/-! ## Helper lemmas -/

lemma hsv_black : rgb_to_hsv_opencv 0 0 0 = (0, 0, 0) := by
  norm_num [rgb_to_hsv_opencv, rnd]

lemma hsv_red : rgb_to_hsv_opencv 255 0 0 = (0, 255, 255) := by
  norm_num [rgb_to_hsv_opencv, rnd]
  omega

lemma hsv_green : rgb_to_hsv_opencv 0 255 0 = (60, 255, 255) := by
  norm_num [rgb_to_hsv_opencv, rnd]
  omega

lemma hsv_blue : rgb_to_hsv_opencv 0 0 255 = (120, 255, 255) := by
  norm_num [rgb_to_hsv_opencv, rnd]
  omega

lemma bgrToRgb_length : ∀ l : List ℕ, (bgrToRgb l).length = l.length
  | [] => rfl
  | [_] => rfl
  | [_, _] => rfl
  | _ :: _ :: _ :: rest => by
      simp only [bgrToRgb, List.length_cons, bgrToRgb_length rest]

lemma singleton_of_mem_length_one {α : Type _} {l : List α} {a : α}
    (ha : a ∈ l) (hl : l.length = 1) : l = [a] := by
  match l with
  | [x] =>
    rw [List.mem_singleton] at ha
    subst ha
    rfl
  | [] => simp at ha
  | _ :: _ :: _ => simp at hl

lemma pushSamples_def (fl : ℕ) (xh yh : List ℚ) (x y : ℚ) :
    pushSamples fl xh yh x y =
      if fl < xh.length + 1 then ((xh ++ [x]).tail, (yh ++ [y]).tail)
      else (xh ++ [x], yh ++ [y]) := by
  unfold pushSamples
  simp [List.length_append]

lemma pushSamples_lengths (fl : ℕ) (xh yh : List ℚ) (x y : ℚ)
    (hlen : yh.length = xh.length) (hle : xh.length ≤ fl) (hfl : 1 ≤ fl) :
    (pushSamples fl xh yh x y).2.length = (pushSamples fl xh yh x y).1.length ∧
    (pushSamples fl xh yh x y).1.length ≤ fl ∧
    (pushSamples fl xh yh x y).1 ≠ [] := by
  rw [pushSamples_def]
  split_ifs with hcond
  · refine ⟨?_, ?_, ?_⟩
    · simp [List.length_tail, hlen]
    · simp only [List.length_tail, List.length_append, List.length_singleton]
      omega
    · rw [← List.length_pos]
      simp only [List.length_tail, List.length_append, List.length_singleton]
      omega
  · refine ⟨by simp [hlen], ?_, by simp⟩
    simp only [List.length_append, List.length_singleton]
    omega

lemma histInv_congr {s t : MouseState} (hx : t.x_history = s.x_history)
    (hy : t.y_history = s.y_history) (hf : t.filter_length = s.filter_length)
    (h : histInv s) : histInv t := by
  unfold histInv at *
  rw [hx, hy, hf]
  exact h

lemma sendMove_fields (s : MouseState) (writeOk : Bool) (x y : ℚ) :
    (sendMove s writeOk x y).1.x_history
        = (pushSamples s.filter_length s.x_history s.y_history x y).1 ∧
    (sendMove s writeOk x y).1.y_history
        = (pushSamples s.filter_length s.x_history s.y_history x y).2 ∧
    (sendMove s writeOk x y).1.filter_length = s.filter_length := by
  cases hp : s.port <;> cases writeOk <;> simp [sendMove, hp]

lemma sendClick_fields (s : MouseState) (writeOk : Bool) :
    (sendClick s writeOk).1.x_history = s.x_history ∧
    (sendClick s writeOk).1.y_history = s.y_history ∧
    (sendClick s writeOk).1.filter_length = s.filter_length := by
  cases hp : s.port <;> cases writeOk <;> simp [sendClick, hp]

lemma connect_fields (s : MouseState) (now : ℕ) (openOk : Bool) :
    (connect s now openOk).1.x_history = s.x_history ∧
    (connect s now openOk).1.y_history = s.y_history ∧
    (connect s now openOk).1.filter_length = s.filter_length := by
  cases openOk <;> simp [connect]

lemma reconnect_fields (s : MouseState) (now : ℕ) (openOk : Bool) :
    (reconnect s now openOk).1.x_history = s.x_history ∧
    (reconnect s now openOk).1.y_history = s.y_history ∧
    (reconnect s now openOk).1.filter_length = s.filter_length := by
  by_cases h : now - s.last_reconnect < s.reconnect_delay_ms
  · simp [reconnect, h]
  · cases openOk <;> simp [reconnect, connect, h]

lemma histInv_sendMove {s : MouseState} (writeOk : Bool) (x y : ℚ)
    (hlen : s.y_history.length = s.x_history.length)
    (hle : s.x_history.length ≤ s.filter_length) (hfl : 1 ≤ s.filter_length) :
    histInv (sendMove s writeOk x y).1 := by
  obtain ⟨h1, h2, h3⟩ := sendMove_fields s writeOk x y
  obtain ⟨g1, g2, g3⟩ := pushSamples_lengths s.filter_length s.x_history
    s.y_history x y hlen hle hfl
  exact ⟨by rw [h1, h2]; exact g1, by rw [h1, h3]; exact g2, by rw [h1]; exact g3⟩

/-! ## Claim theorems -/

/-- C6 counterexample: the claim says `rgb_to_hsv_opencv(0,255,0) =
(30,255,255)` and `rgb_to_hsv_opencv(0,0,255) = (60,255,255)`; the code
computes `(60,255,255)` for green and `(120,255,255)` for blue (green has
hue 120°, blue 240°, halved to 60 and 120). -/
theorem C6_hsv_primaries_cex :
    rgb_to_hsv_opencv 0 255 0 ≠ (30, 255, 255) ∧
    rgb_to_hsv_opencv 0 0 255 ≠ (60, 255, 255) := by
  refine ⟨?_, ?_⟩ <;> simp [hsv_green, hsv_blue]

/-- C6 (amended): the RGB-to-HSV conversion maps the primaries exactly:
red `(255,0,0) ↦ (0,255,255)`, green `(0,255,0) ↦ (60,255,255)`,
blue `(0,0,255) ↦ (120,255,255)`, i.e. hue is normalized to `[0,360)`
then halved into the 8-bit `[0,180]` encoding, with saturation and value
255 for the fully saturated primaries. -/
theorem C6_hsv_primaries :
    rgb_to_hsv_opencv 255 0 0 = (0, 255, 255) ∧
    rgb_to_hsv_opencv 0 255 0 = (60, 255, 255) ∧
    rgb_to_hsv_opencv 0 0 255 = (120, 255, 255) :=
  ⟨hsv_red, hsv_green, hsv_blue⟩

/-- C8: `flick(dx, dy)` is extensionally equal to `move_mouse(dx, dy)`:
for every starting state, oracle outcomes and inputs it produces the same
resulting state (history update, wire bytes sent) and the same result. -/
theorem C8_flick_eq_move (s : MouseState) (now : ℕ) (openOk writeOk : Bool)
    (x y : ℚ) :
    flick s now openOk writeOk x y = move_mouse s now openOk writeOk x y :=
  rfl

/-- C10: the byte encoding of `move_mouse` saturates rather than wrapping
modulo 256 outside one byte of range: the Rust float-to-`u8` cast clamps,
so a smoothed mean `m ≥ 256` emits byte 255, `m ≤ -256` emits byte 0, and
`m ∈ [-256, 0)` maps through `m + 256`. -/
theorem C10_encoding_saturation (m : ℚ) :
    (256 ≤ m → final_byte m = 255) ∧
    (m ≤ -256 → final_byte m = 0) ∧
    (-256 ≤ m → m < 0 → final_byte m = cast_u8 (m + 256)) := by
  refine ⟨?_, ?_, ?_⟩
  · intro h
    have hm : ¬m < 0 := by linarith
    rw [final_byte, if_neg hm, cast_u8, if_neg hm]
    have hf : (256 : ℤ) ≤ Int.floor m := Int.le_floor.mpr (by exact_mod_cast h)
    omega
  · intro h
    have hm : m < 0 := lt_of_le_of_lt h (by norm_num)
    rw [final_byte, if_pos hm, cast_u8]
    split_ifs with h2
    · rfl
    · have hle : m + 256 ≤ 0 := by linarith
      have hf : Int.floor (m + 256) ≤ 0 := by
        calc Int.floor (m + 256) ≤ Int.floor (0 : ℚ) := Int.floor_mono hle
        _ = 0 := Int.floor_zero
      omega
  · intro _ h2
    rw [final_byte, if_pos h2]

/-- C10 witness: the saturation evaluated at concrete out-of-range means
and the `+256` wrap at `-1`. -/
theorem C10_encoding_saturation_witness :
    final_byte 300 = 255 ∧ final_byte (-300) = 0 ∧
    final_byte (-1) = cast_u8 (-1 + 256) :=
  ⟨(C10_encoding_saturation 300).1 (by norm_num),
   (C10_encoding_saturation (-300)).2.1 (by norm_num),
   (C10_encoding_saturation (-1)).2.2 (by norm_num) (by norm_num)⟩

/-- C3: `move_mouse` encodes the smoothed delta into one wire byte by
adding 256 to negative values before truncation to `u8`: with empty
smoothing histories, `dx = -1.0` produces wire byte 255, `dx = 1.0`
produces 1, `dx = 0.0` produces 0, and the written frame is the 3 bytes
`['M', x_byte, y_byte]` (77 = 'M'). -/
theorem C3_move_byte_encoding :
    (move_mouse (freshMouse 0) 0 true true (-1) 0).1.sent = [[77, 255, 0]] ∧
    (move_mouse (freshMouse 0) 0 true true (-1) 0).2 = MRes.ok ∧
    (move_mouse (freshMouse 0) 0 true true 1 0).1.sent = [[77, 1, 0]] ∧
    (move_mouse (freshMouse 0) 0 true true 0 0).1.sent = [[77, 0, 0]] := by
  refine ⟨?_, ?_, ?_, ?_⟩ <;>
    norm_num [move_mouse, sendMove, freshMouse, pushSamples, histMean,
      final_byte, cast_u8]

/-- C5: `reconnect` refuses with the "Too soon" error whenever less than
`reconnect_delay_ms` has elapsed since the last reconnect, leaving the
state unchanged; in particular a second `reconnect` within
`reconnect_delay_ms` of a successful one returns the error. -/
theorem C5_reconnect_cooldown :
    (∀ (s : MouseState) (now : ℕ) (openOk : Bool),
        now - s.last_reconnect < s.reconnect_delay_ms →
        reconnect s now openOk = (s, MRes.err MErr.tooSoon)) ∧
    (∀ (s : MouseState) (t1 t2 : ℕ) (o1 o2 : Bool),
        (reconnect s t1 o1).2 = MRes.ok →
        t2 - t1 < s.reconnect_delay_ms →
        reconnect (reconnect s t1 o1).1 t2 o2 =
          ((reconnect s t1 o1).1, MRes.err MErr.tooSoon)) := by
  have hfirst : ∀ (s : MouseState) (now : ℕ) (openOk : Bool),
      now - s.last_reconnect < s.reconnect_delay_ms →
      reconnect s now openOk = (s, MRes.err MErr.tooSoon) := by
    intro s now openOk h
    unfold reconnect
    rw [if_pos h]
  have hfields : ∀ (s : MouseState) (t1 : ℕ) (o1 : Bool),
      (reconnect s t1 o1).2 = MRes.ok →
      (reconnect s t1 o1).1.last_reconnect = t1 ∧
      (reconnect s t1 o1).1.reconnect_delay_ms = s.reconnect_delay_ms := by
    intro s t1 o1 hok
    by_cases hc : t1 - s.last_reconnect < s.reconnect_delay_ms
    · rw [hfirst s t1 o1 hc] at hok
      simp at hok
    · cases o1 with
      | false => simp [reconnect, connect, hc] at hok
      | true => simp [reconnect, connect, hc]
  refine ⟨hfirst, ?_⟩
  intro s t1 t2 o1 o2 hok hlt
  obtain ⟨e1, e2⟩ := hfields s t1 o1 hok
  exact hfirst _ t2 o2 (by rw [e1, e2]; exact hlt)

/-- C5 witness: with the default 1000 ms cooldown, a successful reconnect
at t=2000 followed by another at t=2500 has the second refuse with
`tooSoon` and leave the state unchanged. -/
theorem C5_reconnect_cooldown_witness :
    reconnect (reconnect (freshMouse 0) 2000 true).1 2500 false =
      ((reconnect (freshMouse 0) 2000 true).1, MRes.err MErr.tooSoon) :=
  C5_reconnect_cooldown.2 (freshMouse 0) 2000 2500 true false
    (by simp [reconnect, connect, freshMouse]) (by norm_num [freshMouse])

/-- C4 counterexample: on a connected link with an open port, a failed
serial write makes `move_mouse` surface the IO error, but `is_connected`
stays `true` — the claim that the flag becomes `false` on a write failure
is false (the flag is only cleared on the port-is-`None` branch). -/
theorem C4_write_failure_cex :
    (move_mouse (freshMouse 0) 0 true false 1 1).2 = MRes.err MErr.ioError ∧
    (move_mouse (freshMouse 0) 0 true false 1 1).1.is_connected = true := by
  constructor <;> simp [move_mouse, sendMove, freshMouse]

/-- C4 (amended): a failed serial write in `move_mouse` or `click`
surfaces the IO error to the caller once, with no retry (no bytes are
appended to the wire log) and with `is_connected` left unchanged (still
`true`); `is_connected` becomes `false` only when the port handle is
absent, in which case the methods fail with the "Serial port not open"
error instead. -/
theorem C4_write_failure (s : MouseState) (now : ℕ) (oOk : Bool) (x y : ℚ)
    (hc : s.is_connected = true) :
    (s.port = some () →
      (move_mouse s now oOk false x y).2 = MRes.err MErr.ioError ∧
      (move_mouse s now oOk false x y).1.is_connected = true ∧
      (move_mouse s now oOk false x y).1.sent = s.sent ∧
      (click s now oOk false).2 = MRes.err MErr.ioError ∧
      (click s now oOk false).1.is_connected = true ∧
      (click s now oOk false).1.sent = s.sent) ∧
    (s.port = none →
      (move_mouse s now oOk false x y).2 = MRes.err MErr.portNotOpen ∧
      (move_mouse s now oOk false x y).1.is_connected = false ∧
      (click s now oOk false).2 = MRes.err MErr.portNotOpen ∧
      (click s now oOk false).1.is_connected = false) := by
  constructor
  · intro hp
    refine ⟨?_, ?_, ?_, ?_, ?_, ?_⟩ <;>
      simp [move_mouse, click, sendMove, sendClick, hc, hp]
  · intro hp
    refine ⟨?_, ?_, ?_, ?_⟩ <;>
      simp [move_mouse, click, sendMove, sendClick, hc, hp]

/-- C4 witness: the amended statement applied to the fresh connected
state with a failing write. -/
theorem C4_write_failure_witness :
    (move_mouse (freshMouse 0) 0 true false 1 1).1.sent = [] ∧
    (click (freshMouse 0) 0 true false).2 = MRes.err MErr.ioError := by
  have h := (C4_write_failure (freshMouse 0) 0 true 1 1 rfl).1 rfl
  exact ⟨h.2.2.1, h.2.2.2.1⟩

/-- C7 counterexample: an iteration whose `BitBlt` region copy fails
(`bitBltOk = false`) still constructs and publishes a new frame,
overwriting the slot — the claim that a failed region copy leaves the
`Option<Frame>` slot untouched is false. -/
theorem C7_capture_failure_cex :
    captureIter ⟨0, 0, 1, 1⟩ ⟨true, true, true, false, [1, 2, 3]⟩
        (some ⟨1, 1, [9, 9, 9]⟩) = some ⟨1, 1, [3, 2, 1]⟩ ∧
    (⟨true, true, true, false, [1, 2, 3]⟩ : CaptureOracle).bitBltOk = false ∧
    some (⟨1, 1, [3, 2, 1]⟩ : Frame) ≠ some (⟨1, 1, [9, 9, 9]⟩ : Frame) := by
  refine ⟨by decide, rfl, by decide⟩

/-- C7 (amended): the early-`continue` failures of a capture iteration
(screen DC unavailable, compatible DC creation failure, bitmap creation
failure) leave the shared frame slot untouched, so consumers keep the
last-good frame and the loop retries; but once those succeed, the
iteration always publishes a freshly built frame — a `BitBlt` (region
copy) or `GetDIBits` failure is only logged and does not prevent
publication. -/
theorem C7_capture_failure (cfg : CaptureConfig) (o : CaptureOracle)
    (slot : Option Frame) :
    (o.getDCOk = false → captureIter cfg o slot = slot) ∧
    (o.createDCOk = false → captureIter cfg o slot = slot) ∧
    (o.createBitmapOk = false → captureIter cfg o slot = slot) ∧
    (o.getDCOk = true → o.createDCOk = true → o.createBitmapOk = true →
      captureIter cfg o slot =
        some ⟨cfg.width, cfg.height,
              bgrToRgb ((List.range (cfg.width * cfg.height * 3)).map
                fun i => o.dibits.getD i 0)⟩) := by
  refine ⟨?_, ?_, ?_, ?_⟩
  · intro h
    simp [captureIter, h]
  · intro h
    by_cases h1 : o.getDCOk <;> simp [captureIter, h, h1]
  · intro h
    by_cases h1 : o.getDCOk <;> by_cases h2 : o.createDCOk <;>
      simp [captureIter, h, h1, h2]
  · intro h1 h2 h3
    have hlen : (bgrToRgb ((List.range (cfg.width * cfg.height * 3)).map
        fun i => o.dibits.getD i 0)).length = cfg.width * cfg.height * 3 := by
      rw [bgrToRgb_length, List.length_map, List.length_range]
    simp only [captureIter, h1, h2, h3, Bool.not_true, Bool.false_eq_true,
      if_false]
    rw [Frame.from_raw, if_pos hlen]

/-- C7 witness: the amended statement at a concrete 1×1 configuration —
a failed screen-DC acquisition leaves the slot untouched, and an
iteration with a failed `BitBlt` still publishes the swapped buffer. -/
theorem C7_capture_failure_witness :
    captureIter ⟨0, 0, 1, 1⟩ ⟨false, true, true, true, []⟩
        (some ⟨1, 1, [9, 9, 9]⟩) = some ⟨1, 1, [9, 9, 9]⟩ ∧
    captureIter ⟨0, 0, 1, 1⟩ ⟨true, true, true, false, [1, 2, 3]⟩ none =
      some ⟨1, 1, bgrToRgb ((List.range (1 * 1 * 3)).map
        fun i => ([1, 2, 3] : List ℕ).getD i 0)⟩ :=
  ⟨(C7_capture_failure ⟨0, 0, 1, 1⟩ ⟨false, true, true, true, []⟩
      (some ⟨1, 1, [9, 9, 9]⟩)).1 rfl,
   (C7_capture_failure ⟨0, 0, 1, 1⟩ ⟨true, true, true, false, [1, 2, 3]⟩
      none).2.2.2 rfl rfl rfl⟩

/-- C2: the smoothing filter inside `move_mouse` is a drop-oldest sliding
window of length at most `filter_length` (the new window is the pushed
window with the oldest element dropped exactly when it would exceed
`filter_length`), and its output is the arithmetic mean of the window:
from empty histories with `filter_length = 3`, pushing
(1,1),(2,2),(3,3),(4,4) yields smoothed outputs (1,1),(1.5,1.5),(2,2),(3,3). -/
theorem C2_smoothing_window :
    (∀ (fl : ℕ) (xh yh : List ℚ) (x y : ℚ),
        xh.length ≤ fl → yh.length = xh.length →
        (pushSamples fl xh yh x y).1 = (xh ++ [x]).drop (xh.length + 1 - fl) ∧
        (pushSamples fl xh yh x y).2 = (yh ++ [y]).drop (xh.length + 1 - fl) ∧
        (pushSamples fl xh yh x y).1.length = min (xh.length + 1) fl) ∧
    pushSeq 3 [] [] [(1, 1), (2, 2), (3, 3), (4, 4)] =
      [(1, 1), (3/2, 3/2), (2, 2), (3, 3)] := by
  constructor
  · intro fl xh yh x y hle hlen
    rw [pushSamples_def]
    by_cases h : fl < xh.length + 1
    · rw [if_pos h]
      have hd : xh.length + 1 - fl = 1 := by omega
      refine ⟨by rw [hd, List.drop_one], by rw [hd, List.drop_one], ?_⟩
      simp only [List.length_tail, List.length_append, List.length_singleton]
      omega
    · rw [if_neg h]
      have hd : xh.length + 1 - fl = 0 := by omega
      refine ⟨by rw [hd, List.drop_zero], by rw [hd, List.drop_zero], ?_⟩
      simp only [List.length_append, List.length_singleton]
      omega
  · norm_num [pushSeq, pushSamples, histMean]

/-- C2 witness: the window characterization applied to a full window
`[1,2,3]` with `filter_length = 3` and a new sample 4 — the oldest
element is dropped. -/
theorem C2_smoothing_window_witness :
    (pushSamples 3 [1, 2, 3] [1, 2, 3] 4 4).1 =
      (([1, 2, 3] : List ℚ) ++ [4]).drop (([1, 2, 3] : List ℚ).length + 1 - 3) ∧
    (pushSamples 3 [1, 2, 3] [1, 2, 3] 4 4).2 =
      (([1, 2, 3] : List ℚ) ++ [4]).drop (([1, 2, 3] : List ℚ).length + 1 - 3) ∧
    (pushSamples 3 [1, 2, 3] [1, 2, 3] 4 4).1.length =
      min (([1, 2, 3] : List ℚ).length + 1) 3 :=
  C2_smoothing_window.1 3 [1, 2, 3] [1, 2, 3] 4 4 (by norm_num) rfl

/-- C9: the history invariant (equal lengths, at most `filter_length`,
non-empty — so the means divide by a positive length) holds after every
`move_mouse` call whatever its result, once the first completed push has
established it, and every operation of `ArduinoMouse` preserves it. -/
theorem C9_history_invariant :
    (∀ (s : MouseState) (now : ℕ) (oOk wOk : Bool) (x y : ℚ),
        histInv s → histInv (move_mouse s now oOk wOk x y).1) ∧
    (∀ (s : MouseState) (now : ℕ) (oOk wOk : Bool) (x y : ℚ),
        s.is_connected = true →
        s.y_history.length = s.x_history.length →
        s.x_history.length ≤ s.filter_length →
        1 ≤ s.filter_length →
        histInv (move_mouse s now oOk wOk x y).1) ∧
    (∀ (s : MouseState) (now : ℕ) (oOk wOk : Bool) (x y : ℚ),
        histInv s → histInv (flick s now oOk wOk x y).1) ∧
    (∀ (s : MouseState) (now : ℕ) (oOk wOk : Bool),
        histInv s → histInv (click s now oOk wOk).1) ∧
    (∀ (s : MouseState) (now : ℕ) (oOk : Bool),
        histInv s → histInv (reconnect s now oOk).1) ∧
    (∀ (s : MouseState) (now : ℕ) (oOk : Bool),
        histInv s → histInv (connect s now oOk).1) ∧
    (∀ s : MouseState, histInv s → histInv (close s)) := by
  have hconn : ∀ (s : MouseState) (now : ℕ) (oOk wOk : Bool) (x y : ℚ),
      s.is_connected = true →
      s.y_history.length = s.x_history.length →
      s.x_history.length ≤ s.filter_length →
      1 ≤ s.filter_length →
      histInv (move_mouse s now oOk wOk x y).1 := by
    intro s now oOk wOk x y hc h1 h2 hfl
    rw [move_mouse, if_pos hc]
    exact histInv_sendMove wOk x y h1 h2 hfl
  have hmove : ∀ (s : MouseState) (now : ℕ) (oOk wOk : Bool) (x y : ℚ),
      histInv s → histInv (move_mouse s now oOk wOk x y).1 := by
    intro s now oOk wOk x y hinv
    obtain ⟨h1, h2, h3⟩ := hinv
    have hfl : 1 ≤ s.filter_length :=
      le_trans (Nat.succ_le_of_lt (List.length_pos.mpr h3)) h2
    by_cases hc : s.is_connected
    · exact hconn s now oOk wOk x y hc h1 h2 hfl
    · rw [move_mouse, if_neg hc]
      obtain ⟨f1, f2, f3⟩ := reconnect_fields s now oOk
      rcases hrec : reconnect s now oOk with ⟨s1, r⟩
      rw [hrec] at f1 f2 f3
      simp only at f1 f2 f3
      cases r with
      | err e =>
        show histInv s1
        refine ⟨?_, ?_, ?_⟩
        · rw [f2, f1]; exact h1
        · rw [f1, f3]; exact h2
        · rw [f1]; exact h3
      | ok =>
        show histInv (sendMove s1 wOk x y).1
        refine histInv_sendMove wOk x y ?_ ?_ ?_
        · rw [f2, f1]; exact h1
        · rw [f1, f3]; exact h2
        · rw [f3]; exact hfl
  have hclick : ∀ (s : MouseState) (now : ℕ) (oOk wOk : Bool),
      histInv s → histInv (click s now oOk wOk).1 := by
    intro s now oOk wOk hinv
    have hsc : ∀ t : MouseState, histInv t → histInv (sendClick t wOk).1 := by
      intro t ht
      obtain ⟨g1, g2, g3⟩ := sendClick_fields t wOk
      exact histInv_congr g1 g2 g3 ht
    by_cases hc : s.is_connected
    · rw [click, if_pos hc]
      exact hsc s hinv
    · rw [click, if_neg hc]
      obtain ⟨f1, f2, f3⟩ := reconnect_fields s now oOk
      rcases hrec : reconnect s now oOk with ⟨s1, r⟩
      rw [hrec] at f1 f2 f3
      simp only at f1 f2 f3
      have hs1 : histInv s1 := histInv_congr f1 f2 f3 hinv
      cases r with
      | err e =>
        show histInv s1
        exact hs1
      | ok =>
        show histInv (sendClick s1 wOk).1
        exact hsc s1 hs1
  refine ⟨hmove, hconn, ?_, hclick, ?_, ?_, ?_⟩
  · intro s now oOk wOk x y hinv
    exact hmove s now oOk wOk x y hinv
  · intro s now oOk hinv
    obtain ⟨f1, f2, f3⟩ := reconnect_fields s now oOk
    exact histInv_congr f1 f2 f3 hinv
  · intro s now oOk hinv
    obtain ⟨f1, f2, f3⟩ := connect_fields s now oOk
    exact histInv_congr f1 f2 f3 hinv
  · intro s hinv
    exact histInv_congr rfl rfl rfl hinv

/-- C9 witness: the invariant holds and is preserved through a concrete
`move_mouse` call on a state with singleton histories. -/
theorem C9_history_invariant_witness :
    histInv (move_mouse
      { freshMouse 0 with x_history := [1], y_history := [1] }
      0 true true 5 5).1 :=
  C9_history_invariant.1 _ 0 true true 5 5 ⟨rfl, by decide, by decide⟩

/-- C1: for every frame and every choice of inclusive per-channel HSV
bounds, `find_target_hsv` returns `None` when no pixel matches (never
`Some((0,0))` for an empty match set); when exactly one pixel matches at
`(px, py)` it returns exactly `Some((px, py))`; and in general, for a
non-empty match set it returns the integer-truncated mean of the matching
pixels' coordinates. -/
theorem C1_locate_centroid (lower upper : ℕ × ℕ × ℕ) (f : Frame) :
    ((∀ p ∈ framePixels f, ¬pixelMatches lower upper f p = true) →
      find_target_hsv lower upper f = none) ∧
    (∀ px py, (px, py) ∈ framePixels f →
      pixelMatches lower upper f (px, py) = true →
      (framePixels f).countP (pixelMatches lower upper f) = 1 →
      find_target_hsv lower upper f = some (px, py)) ∧
    (∀ m, (framePixels f).filter (pixelMatches lower upper f) = m →
      m ≠ [] →
      find_target_hsv lower upper f =
        some ((m.map Prod.fst).sum / m.length, (m.map Prod.snd).sum / m.length)) := by
  refine ⟨?_, ?_, ?_⟩
  · intro h
    have hnil : (framePixels f).filter (pixelMatches lower upper f) = [] :=
      List.filter_eq_nil_iff.mpr h
    simp [find_target_hsv, hnil]
  · intro px py hmem hmatch hcount
    have hflt : (px, py) ∈ (framePixels f).filter (pixelMatches lower upper f) :=
      List.mem_filter.mpr ⟨hmem, hmatch⟩
    have hlen : ((framePixels f).filter (pixelMatches lower upper f)).length = 1 := by
      rw [← List.countP_eq_length_filter]
      exact hcount
    have hsing := singleton_of_mem_length_one hflt hlen
    simp [find_target_hsv, hsing]
  · intro m hm hne
    subst hm
    have hpos : 0 < ((framePixels f).filter (pixelMatches lower upper f)).length :=
      List.length_pos.mpr hne
    simp [find_target_hsv, hpos]

/-- C1 witness: on a 2×2 frame whose only matching pixel (for bounds
selecting pure red) sits at `(1, 0)`, the locator returns exactly
`Some((1, 0))`; on an all-black frame it returns `None`. -/
theorem C1_locate_centroid_witness :
    find_target_hsv redBound redBound frRed = some (1, 0) ∧
    find_target_hsv redBound redBound frBlack = none := by
  have p00 : pixelMatches redBound redBound frRed (0, 0) = false := by
    have hp : Frame.get_pixel frRed 0 0 = (0, 0, 0) := rfl
    simp [pixelMatches, hp, hsv_black, redBound]
  have p10 : pixelMatches redBound redBound frRed (1, 0) = true := by
    have hp : Frame.get_pixel frRed 1 0 = (255, 0, 0) := rfl
    simp [pixelMatches, hp, hsv_red, redBound]
  have p01 : pixelMatches redBound redBound frRed (0, 1) = false := by
    have hp : Frame.get_pixel frRed 0 1 = (0, 0, 0) := rfl
    simp [pixelMatches, hp, hsv_black, redBound]
  have p11 : pixelMatches redBound redBound frRed (1, 1) = false := by
    have hp : Frame.get_pixel frRed 1 1 = (0, 0, 0) := rfl
    simp [pixelMatches, hp, hsv_black, redBound]
  have pb : pixelMatches redBound redBound frBlack (0, 0) = false := by
    have hp : Frame.get_pixel frBlack 0 0 = (0, 0, 0) := rfl
    simp [pixelMatches, hp, hsv_black, redBound]
  constructor
  · refine (C1_locate_centroid redBound redBound frRed).2.1 1 0 (by decide)
      p10 ?_
    have e : framePixels frRed = [(0, 0), (1, 0), (0, 1), (1, 1)] := rfl
    rw [e]
    simp only [List.countP_cons, List.countP_nil, p00, p10, p01, p11]
    decide
  · refine (C1_locate_centroid redBound redBound frBlack).1 ?_
    intro p hp
    have e : framePixels frBlack = [(0, 0)] := rfl
    rw [e] at hp
    simp only [List.mem_singleton] at hp
    subst hp
    simp only [pb]
    decide

end Colorant
